import Mathlib

/-!
Shallow embedding of the affect-sensing interview client: the facial and
vocal affect mappers, the temporal smoother, the detection-miss decay,
the multimodal fusion with its emotion history, the vocal frame counters,
and the gapless PCM playback scheduler with its stop flag.
Numbers are modelled as rationals; JS Math.round(x * 100) / 100 becomes
round2 below, Math.min(1, x) becomes min 1 x.
-/

/-- Seven-channel raw facial expression sample (EmotionDetector). -/
structure FacialEmotions where
  angry : ℚ
  disgusted : ℚ
  fearful : ℚ
  happy : ℚ
  neutral : ℚ
  sad : ℚ
  surprised : ℚ

/-- Per-modality affect vector produced by the visual mapper. -/
structure InterviewEmotions where
  anxiety : ℚ
  confidence : ℚ
  engagement : ℚ

/-- Vocal feature sample (VocalAnalyzer). -/
structure VocalFeatures where
  pitch : ℚ
  pitchVariation : ℚ
  volume : ℚ
  speakingRate : ℚ
  stress : ℚ

/-- Affect vector produced by the vocal mapper. -/
structure VocalEmotions where
  anxiety : ℚ
  confidence : ℚ
  engagement : ℚ

/-- Fused affect vector (page component). -/
structure FusedEmotions where
  anxiety : ℚ
  confidence : ℚ
  engagement : ℚ

/-- One point of the emotion history / timeline. -/
structure EmotionHistoryPoint where
  timestamp : ℚ
  anxiety : ℚ
  confidence : ℚ
  engagement : ℚ

/-- JS Math.round(x * 100) / 100: round to two decimal places,
halves away from zero for nonnegative inputs. -/
def round2 (x : ℚ) : ℚ := (⌊x * 100 + 1 / 2⌋ : ℚ) / 100

/-- Smoothing factor of the visual smoother (source constant 0.3). -/
def SMOOTHING_FACTOR : ℚ := 3 / 10

/-- Fusion weight of the vocal modality (source constant 0.6). -/
def AUDIO_WEIGHT : ℚ := 6 / 10

/-- Fusion weight of the visual modality (source constant 0.4). -/
def VISUAL_WEIGHT : ℚ := 4 / 10

/-- mapToInterviewEmotions from EmotionDetector: heuristic weighted sums,
clamped by min 1 and rounded to two decimals. -/
def mapToInterviewEmotions (facial : FacialEmotions) : InterviewEmotions :=
  let anxiety := min 1 (facial.fearful * 2 + facial.sad * (12 / 10) +
    facial.angry * (5 / 10) + facial.disgusted * (3 / 10))
  let confidence := min 1 (facial.happy * (15 / 10) + facial.neutral * (4 / 10) +
    facial.surprised * (3 / 10) + (1 - anxiety) * (3 / 10))
  let expressiveness := 1 - facial.neutral
  let engagement := min 1 (expressiveness * (4 / 10) + facial.happy * (4 / 10) +
    facial.surprised * (3 / 10) + |facial.angry + facial.disgusted| * (1 / 10))
  { anxiety := round2 anxiety
    confidence := round2 confidence
    engagement := round2 engagement }

/-- mapToVocalEmotions from VocalAnalyzer. -/
def mapToVocalEmotions (features : VocalFeatures) : VocalEmotions :=
  let anxiety := min 1 (features.pitchVariation * (4 / 10) +
    (1 - features.volume) * (3 / 10) + features.stress * (3 / 10))
  let confidence := min 1 ((1 - features.pitchVariation) * (3 / 10) +
    features.volume * (4 / 10) + features.speakingRate * (3 / 10))
  let engagement := min 1 (features.speakingRate * (5 / 10) +
    features.volume * (3 / 10) + features.pitchVariation * (2 / 10))
  { anxiety := round2 anxiety
    confidence := round2 confidence
    engagement := round2 engagement }

/-- mapToVocalEmotions as the specification words it: weight-first products,
clamp with min 1, round to two decimals. -/
def vocalEmotionsSpec (v : VocalFeatures) : VocalEmotions :=
  { anxiety := round2 (min 1 ((4 / 10) * v.pitchVariation +
      (3 / 10) * (1 - v.volume) + (3 / 10) * v.stress))
    confidence := round2 (min 1 ((3 / 10) * (1 - v.pitchVariation) +
      (4 / 10) * v.volume + (3 / 10) * v.speakingRate))
    engagement := round2 (min 1 ((5 / 10) * v.speakingRate +
      (3 / 10) * v.volume + (2 / 10) * v.pitchVariation)) }

/-- fuseEmotions from the interview page: a missing modality is replaced by
the neutral default vector, both missing is a no-op (none). -/
def fuseEmotions (facialEmotions : Option InterviewEmotions)
    (vocalEmotions : Option VocalEmotions) : Option FusedEmotions :=
  match facialEmotions, vocalEmotions with
  | none, none => none
  | _, _ =>
    let facial := facialEmotions.getD ⟨1 / 2, 1 / 2, 1 / 2⟩
    let vocal := vocalEmotions.getD ⟨1 / 2, 1 / 2, 1 / 2⟩
    some { anxiety := AUDIO_WEIGHT * vocal.anxiety + VISUAL_WEIGHT * facial.anxiety
           confidence := AUDIO_WEIGHT * vocal.confidence + VISUAL_WEIGHT * facial.confidence
           engagement := AUDIO_WEIGHT * vocal.engagement + VISUAL_WEIGHT * facial.engagement }

/-- The history append of fuseEmotions on the interview page:
setEmotionHistory(prev concatenated with the new point), with no cap. -/
def emotionHistoryAppend (prev : List EmotionHistoryPoint)
    (p : EmotionHistoryPoint) : List EmotionHistoryPoint :=
  prev ++ [p]

/-- The timeline append of the admin dashboard handler for fused emotions:
prev.slice(-200) concatenated with the new point. -/
def emotionTimelineAppend (prev : List EmotionHistoryPoint)
    (p : EmotionHistoryPoint) : List EmotionHistoryPoint :=
  prev.drop (prev.length - 200) ++ [p]

/-- The per-channel exponential smoothing step of EmotionDetector. -/
def smooth (curr prev : ℚ) : ℚ :=
  prev * SMOOTHING_FACTOR + curr * (1 - SMOOTHING_FACTOR)

/-- smoothEmotions from EmotionDetector: pass through on a null previous
sample, otherwise smooth each channel. -/
def smoothEmotions (current : FacialEmotions)
    (previous : Option FacialEmotions) : FacialEmotions :=
  match previous with
  | none => current
  | some prev =>
    { angry := smooth current.angry prev.angry
      disgusted := smooth current.disgusted prev.disgusted
      fearful := smooth current.fearful prev.fearful
      happy := smooth current.happy prev.happy
      neutral := smooth current.neutral prev.neutral
      sad := smooth current.sad prev.sad
      surprised := smooth current.surprised prev.surprised }

/-- The decayed copy built in the no-detection branch of detectEmotions:
only the neutral channel changes, multiplied by 1.05 and capped at 1. -/
def decayed (lastEmotion : FacialEmotions) : FacialEmotions :=
  { lastEmotion with neutral := min 1 (lastEmotion.neutral * (105 / 100)) }

/-- The no-detection branch of detectEmotions: if a previous smoothed sample
exists and the history is nonempty, emit the decayed copy of the last
history entry, otherwise emit nothing. -/
def detectEmotionsMiss (previousEmotions : Option FacialEmotions)
    (emotionHistory : List FacialEmotions) : Option FacialEmotions :=
  match previousEmotions with
  | none => none
  | some _ =>
    match emotionHistory.getLast? with
    | none => none
    | some lastEmotion => some (decayed lastEmotion)

/-- The silence and total frame counters of the vocal analyze loop. -/
structure FrameCounters where
  silenceFrames : ℕ
  totalFrames : ℕ

/-- One frame of the analyze loop: the total counter always increments, the
silence counter increments when the computed volume is below 0.05. -/
def trackFrame (c : FrameCounters) (volume : ℚ) : FrameCounters :=
  { silenceFrames := if volume < 1 / 20 then c.silenceFrames + 1 else c.silenceFrames
    totalFrames := c.totalFrames + 1 }

/-- speakingRate as computed at the aggregation boundary of analyze. -/
def speakingRate (c : FrameCounters) : ℚ :=
  1 - (c.silenceFrames : ℚ) / (c.totalFrames : ℚ)

/-- One downlink PCM chunk as the playback loop sees it: the clock value
read when it is scheduled and its buffer duration. -/
structure PcmChunk where
  now : ℚ
  dur : ℚ

/-- The scheduling data the loop computes for one chunk. -/
structure SchedEntry where
  now : ℚ
  startAt : ℚ
  endAt : ℚ

/-- The scheduling recurrence of playAudioQueue: startAt is the maximum of
the current clock and the cursor, the cursor advances to startAt plus the
chunk duration. -/
def playAudioQueueSched (nextPlayTime : ℚ) : List PcmChunk → List SchedEntry
  | [] => []
  | c :: cs =>
    let startAt := max c.now nextPlayTime
    { now := c.now, startAt := startAt, endAt := startAt + c.dur } ::
      playAudioQueueSched (startAt + c.dur) cs

/-- An identified PCM chunk for the playback state machine. -/
structure AudioChunk where
  id : ℕ
  dur : ℚ

/-- The playback state of the interview page: the pending queue, the chunks
whose source node was started, the stopped flag, the playing flag, the
scheduling cursor, and whether the playback AudioContext is open. -/
structure AudioState where
  audioQueue : List AudioChunk
  started : List AudioChunk
  stopped : Bool
  isPlaying : Bool
  nextPlayTime : ℚ
  ctxOpen : Bool

/-- handleAudioPlayback: a chunk arriving after stop is discarded, otherwise
it is pushed on the queue and the playback loop is (re)entered. -/
def handleAudioPlayback (s : AudioState) (c : AudioChunk) : AudioState :=
  if s.stopped then s
  else { s with audioQueue := s.audioQueue ++ [c], isPlaying := true, ctxOpen := true }

/-- One iteration of the playAudioQueue while loop, atomic between awaits:
with the loop running, a set stopped flag or an empty queue exits the loop,
otherwise the head chunk is started and the cursor advances. -/
def playLoopIter (s : AudioState) (now : ℚ) : AudioState :=
  if s.isPlaying then
    if s.stopped then { s with isPlaying := false }
    else
      match s.audioQueue with
      | [] => { s with isPlaying := false }
      | c :: rest =>
        let startAt := max now s.nextPlayTime
        { s with audioQueue := rest
                 started := s.started ++ [c]
                 nextPlayTime := startAt + c.dur
                 ctxOpen := true }
  else s

/-- stopAllAudio: set the stopped flag, drop the queue, clear the playing
flag, reset the cursor, close and null the playback context. -/
def stopAllAudio (s : AudioState) : AudioState :=
  { s with stopped := true
           audioQueue := []
           isPlaying := false
           nextPlayTime := 0
           ctxOpen := false }

/-- The events that touch the playback state. -/
inductive AudioEvent where
  | recv (c : AudioChunk)
  | tick (now : ℚ)
  | cancel

/-- Dispatch one event on the playback state. -/
def audioStep (s : AudioState) (e : AudioEvent) : AudioState :=
  match e with
  | .recv c => handleAudioPlayback s c
  | .tick now => playLoopIter s now
  | .cancel => stopAllAudio s

/-- Run a sequence of playback events. -/
def audioRun (s : AudioState) (es : List AudioEvent) : AudioState :=
  es.foldl audioStep s

/-- Membership of a value in the unit interval. -/
def unitRange (x : ℚ) : Prop := 0 ≤ x ∧ x ≤ 1

/-- All seven facial channels lie in the unit interval. -/
def validFacial (f : FacialEmotions) : Prop :=
  unitRange f.angry ∧ unitRange f.disgusted ∧ unitRange f.fearful ∧
    unitRange f.happy ∧ unitRange f.neutral ∧ unitRange f.sad ∧ unitRange f.surprised

/-- All five vocal feature fields lie in the unit interval. -/
def validVocalFeatures (v : VocalFeatures) : Prop :=
  unitRange v.pitch ∧ unitRange v.pitchVariation ∧ unitRange v.volume ∧
    unitRange v.speakingRate ∧ unitRange v.stress

/-- All visual affect channels lie in the unit interval. -/
def interviewInRange (e : InterviewEmotions) : Prop :=
  unitRange e.anxiety ∧ unitRange e.confidence ∧ unitRange e.engagement

/-- All vocal affect channels lie in the unit interval. -/
def vocalInRange (e : VocalEmotions) : Prop :=
  unitRange e.anxiety ∧ unitRange e.confidence ∧ unitRange e.engagement

/-- All fused affect channels lie in the unit interval. -/
def fusedInRange (e : FusedEmotions) : Prop :=
  unitRange e.anxiety ∧ unitRange e.confidence ∧ unitRange e.engagement

/-- A concrete history point used by the counterexample. -/
def pt0 : EmotionHistoryPoint := ⟨0, 0, 0, 0⟩

/-- A concrete facial sample used by witnesses. -/
def exFacial : FacialEmotions := ⟨1 / 10, 0, 2 / 10, 3 / 10, 3 / 10, 1 / 10, 0⟩

/-- The vocal feature sample of the worked example in the specification. -/
def exVocalFeatures : VocalFeatures := ⟨1 / 2, 8 / 10, 2 / 10, 6 / 10, 7 / 10⟩

theorem round2_nonneg {x : ℚ} (h0 : 0 ≤ x) : 0 ≤ round2 x := by
  unfold round2
  apply div_nonneg _ (by norm_num)
  exact_mod_cast Int.floor_nonneg.mpr (by linarith)

theorem round2_le_one {x : ℚ} (h1 : x ≤ 1) : round2 x ≤ 1 := by
  unfold round2
  rw [div_le_one (by norm_num)]
  have h : (⌊x * 100 + 1 / 2⌋ : ℤ) ≤ ⌊(201 / 2 : ℚ)⌋ := Int.floor_le_floor (by linarith)
  have h2 : (⌊(201 / 2 : ℚ)⌋ : ℤ) = 100 := by norm_num [Int.floor_eq_iff]
  exact_mod_cast h.trans_eq h2

theorem round2_unitRange {x : ℚ} (h0 : 0 ≤ x) (h1 : x ≤ 1) : unitRange (round2 x) :=
  ⟨round2_nonneg h0, round2_le_one h1⟩

theorem min_one_unitRange {t : ℚ} (h : 0 ≤ t) : unitRange (min 1 t) :=
  ⟨le_min (by norm_num) h, min_le_left _ _⟩

theorem round2_min_one_unitRange {t : ℚ} (h : 0 ≤ t) : unitRange (round2 (min 1 t)) :=
  round2_unitRange (min_one_unitRange h).1 (min_one_unitRange h).2

/-- Claim C6: the vocal affect mapper computes exactly the three clamped,
two-decimal weighted sums the specification states, and on the worked
example sample its anxiety output is 0.77. -/
theorem mapToVocalEmotions_matches_spec :
    (∀ v : VocalFeatures, mapToVocalEmotions v = vocalEmotionsSpec v) ∧
    (mapToVocalEmotions exVocalFeatures).anxiety = 77 / 100 := by
  constructor
  · intro v
    have h1 : v.pitchVariation * (4 / 10) + (1 - v.volume) * (3 / 10) + v.stress * (3 / 10) =
        (4 / 10) * v.pitchVariation + (3 / 10) * (1 - v.volume) + (3 / 10) * v.stress := by ring
    have h2 : (1 - v.pitchVariation) * (3 / 10) + v.volume * (4 / 10) + v.speakingRate * (3 / 10) =
        (3 / 10) * (1 - v.pitchVariation) + (4 / 10) * v.volume + (3 / 10) * v.speakingRate := by
      ring
    have h3 : v.speakingRate * (5 / 10) + v.volume * (3 / 10) + v.pitchVariation * (2 / 10) =
        (5 / 10) * v.speakingRate + (3 / 10) * v.volume + (2 / 10) * v.pitchVariation := by ring
    simp only [mapToVocalEmotions, vocalEmotionsSpec, h1, h2, h3]
  · show round2 (min 1 ((8 / 10 : ℚ) * (4 / 10) + (1 - 2 / 10) * (3 / 10) + 7 / 10 * (3 / 10))) =
      77 / 100
    norm_num [round2, Int.floor_eq_iff]

/-- Claim C5: with exactly one modality present, fusion substitutes the
neutral default 0.5 for the missing modality and returns, per channel,
0.6 times the vocal value plus 0.4 times the facial value. -/
theorem fuseEmotions_single_modality :
    (∀ v : VocalEmotions, fuseEmotions none (some v) =
      some { anxiety := (6 / 10) * v.anxiety + (4 / 10) * (1 / 2)
             confidence := (6 / 10) * v.confidence + (4 / 10) * (1 / 2)
             engagement := (6 / 10) * v.engagement + (4 / 10) * (1 / 2) }) ∧
    (∀ f : InterviewEmotions, fuseEmotions (some f) none =
      some { anxiety := (4 / 10) * f.anxiety + (6 / 10) * (1 / 2)
             confidence := (4 / 10) * f.confidence + (6 / 10) * (1 / 2)
             engagement := (4 / 10) * f.engagement + (6 / 10) * (1 / 2) }) := by
  constructor
  · intro v
    simp only [fuseEmotions, Option.getD, AUDIO_WEIGHT, VISUAL_WEIGHT,
      Option.some.injEq, FusedEmotions.mk.injEq]
  · intro f
    simp only [fuseEmotions, Option.getD, AUDIO_WEIGHT, VISUAL_WEIGHT,
      Option.some.injEq, FusedEmotions.mk.injEq]
    refine ⟨by ring, by ring, by ring⟩

/-- Claim C8: on a detection miss with a prior smoothed sample and a
nonempty history, the emitted sample is the last history entry with its
neutral channel replaced by min 1 of 1.05 times its old value and every
other channel unchanged; a prior neutral of one half decays to 0.525. -/
theorem detectEmotions_miss_decay :
    (∀ (prev e : FacialEmotions) (hist : List FacialEmotions),
      detectEmotionsMiss (some prev) (hist ++ [e]) =
        some { angry := e.angry
               disgusted := e.disgusted
               fearful := e.fearful
               happy := e.happy
               neutral := min 1 (e.neutral * (105 / 100))
               sad := e.sad
               surprised := e.surprised }) ∧
    (decayed { angry := 0, disgusted := 0, fearful := 0, happy := 0,
               neutral := 1 / 2, sad := 0, surprised := 0 }).neutral = 21 / 40 := by
  constructor
  · intro prev e hist
    simp [detectEmotionsMiss, decayed]
  · norm_num [decayed]

/-- Claim C9: the smoother passes the input through unchanged when the
previous sample is null, otherwise returns per channel
prev times alpha plus raw times one minus alpha with alpha fixed at 0.3,
which lies strictly between the previous and current values whenever they
differ. -/
theorem smoothEmotions_cold_start_interpolation :
    (∀ c : FacialEmotions, smoothEmotions c none = c) ∧
    (∀ c p : FacialEmotions, smoothEmotions c (some p) =
      { angry := smooth c.angry p.angry
        disgusted := smooth c.disgusted p.disgusted
        fearful := smooth c.fearful p.fearful
        happy := smooth c.happy p.happy
        neutral := smooth c.neutral p.neutral
        sad := smooth c.sad p.sad
        surprised := smooth c.surprised p.surprised }) ∧
    (∀ prev curr : ℚ, smooth curr prev = prev * (3 / 10) + curr * (7 / 10)) ∧
    (∀ prev curr : ℚ, prev ≠ curr →
      min prev curr < smooth curr prev ∧ smooth curr prev < max prev curr) := by
  refine ⟨fun c => rfl, fun c p => rfl, ?_, ?_⟩
  · intro prev curr
    unfold smooth SMOOTHING_FACTOR
    ring
  · intro prev curr h
    unfold smooth SMOOTHING_FACTOR
    rcases lt_or_gt_of_ne h with hlt | hgt
    · rw [min_eq_left hlt.le, max_eq_right hlt.le]
      constructor <;> nlinarith
    · rw [min_eq_right hgt.le, max_eq_left hgt.le]
      constructor <;> nlinarith

theorem foldl_trackFrame (vols : List ℚ) (c : FrameCounters) :
    vols.foldl trackFrame c =
      { silenceFrames := c.silenceFrames + vols.countP (fun v => decide (v < 1 / 20))
        totalFrames := c.totalFrames + vols.length } := by
  induction vols generalizing c with
  | nil => simp
  | cons v vs ih =>
    rw [List.foldl_cons, ih]
    simp only [trackFrame, List.countP_cons, List.length_cons, decide_eq_true_eq,
      FrameCounters.mk.injEq]
    constructor
    · split_ifs with h <;> omega
    · omega

/-- Claim C7: the speaking rate computed from the incrementally tracked
counters equals one minus the ratio of blocks whose computed volume is
below 0.05 to the total number of blocks. -/
theorem speakingRate_silence_ratio (vols : List ℚ) :
    speakingRate (vols.foldl trackFrame ⟨0, 0⟩) =
      1 - (vols.countP (fun v => decide (v < 1 / 20)) : ℚ) / (vols.length : ℚ) := by
  rw [foldl_trackFrame]
  simp [speakingRate]

theorem foldl_emotionHistoryAppend (ps : List EmotionHistoryPoint)
    (acc : List EmotionHistoryPoint) :
    List.foldl emotionHistoryAppend acc ps = acc ++ ps := by
  induction ps generalizing acc with
  | nil => simp
  | cons p ps ih => simp [emotionHistoryAppend, ih]

theorem foldl_emotionTimelineAppend (ps : List EmotionHistoryPoint) :
    List.foldl emotionTimelineAppend [] ps = ps.drop (ps.length - 201) := by
  induction ps using List.reverseRecOn with
  | nil => rfl
  | append_singleton l a ih =>
    rw [List.foldl_append, List.foldl_cons, List.foldl_nil, ih]
    unfold emotionTimelineAppend
    rw [List.length_drop, List.drop_drop, List.length_append, List.length_singleton,
      List.drop_append_of_le_length (by omega)]
    have hn : l.length - 201 + (l.length - (l.length - 201) - 200) = l.length + 1 - 201 := by
      omega
    rw [hn]

/-- Claim C2 counterexample: the interview page emotion history grows
without bound; after 300 fusion appends its length is 300, not the cap. -/
theorem emotionHistory_unbounded_cex :
    (List.foldl emotionHistoryAppend [] (List.replicate 300 pt0)).length = 300 ∧
      (300 : ℕ) ≠ 200 ∧ (300 : ℕ) ≠ 201 := by
  refine ⟨?_, by decide, by decide⟩
  rw [foldl_emotionHistoryAppend, List.nil_append, List.length_replicate]

/-- Claim C2 amended: the fusion history on the interview page is unbounded
(it equals the full append sequence), while the bounded FIFO buffer is the
admin dashboard emotion timeline, which always holds the most recent
min(n, 201) of the n appended points, so after more than 201 appends its
length stays at 201 and the oldest entries are evicted first. -/
theorem emotionHistory_and_timeline_bound (ps : List EmotionHistoryPoint) :
    List.foldl emotionHistoryAppend [] ps = ps ∧
    List.foldl emotionTimelineAppend [] ps = ps.drop (ps.length - 201) ∧
    (List.foldl emotionTimelineAppend [] ps).length = min ps.length 201 := by
  refine ⟨by rw [foldl_emotionHistoryAppend]; rfl, foldl_emotionTimelineAppend ps, ?_⟩
  rw [foldl_emotionTimelineAppend, List.length_drop]
  omega

theorem playAudioQueueSched_cons (npt : ℚ) (c : PcmChunk) (cs : List PcmChunk) :
    playAudioQueueSched npt (c :: cs) =
      { now := c.now, startAt := max c.now npt, endAt := max c.now npt + c.dur } ::
        playAudioQueueSched (max c.now npt + c.dur) cs := rfl

/-- Claim C3: along any scheduled chunk sequence, each entry starts no
earlier than its predecessor ends, and exactly at the predecessor end time
when its clock reading is at most that end time. -/
theorem playAudioQueueSched_gapless (npt : ℚ) (cs : List PcmChunk) :
    List.Chain'
      (fun a b => a.endAt ≤ b.startAt ∧ (b.now ≤ a.endAt → b.startAt = a.endAt))
      (playAudioQueueSched npt cs) := by
  induction cs generalizing npt with
  | nil => simp [playAudioQueueSched]
  | cons c cs ih =>
    rw [playAudioQueueSched_cons, List.chain'_cons']
    refine ⟨?_, ih _⟩
    intro y hy
    cases cs with
    | nil => simp [playAudioQueueSched] at hy
    | cons c2 cs2 =>
      rw [playAudioQueueSched_cons] at hy
      simp only [List.head?_cons, Option.mem_def, Option.some.injEq] at hy
      subst hy
      exact ⟨le_max_right _ _, fun h => max_eq_right h⟩

theorem audioStep_stopped (s : AudioState) (e : AudioEvent) (h : s.stopped = true)
    (hq : s.audioQueue = []) :
    (audioStep s e).stopped = true ∧ (audioStep s e).started = s.started ∧
      (audioStep s e).audioQueue = [] := by
  cases e with
  | recv c => simp [audioStep, handleAudioPlayback, h, hq]
  | tick now =>
    simp only [audioStep, playLoopIter, h]
    by_cases hp : s.isPlaying = true <;> simp [hp, h, hq]
  | cancel => simp [audioStep, stopAllAudio, h]

theorem audioRun_stopped (s : AudioState) (es : List AudioEvent) (h : s.stopped = true)
    (hq : s.audioQueue = []) :
    (audioRun s es).stopped = true ∧ (audioRun s es).started = s.started ∧
      (audioRun s es).audioQueue = [] := by
  induction es generalizing s with
  | nil => exact ⟨h, rfl, hq⟩
  | cons e es ih =>
    obtain ⟨h1, h2, h3⟩ := audioStep_stopped s e h hq
    obtain ⟨g1, g2, g3⟩ := ih (audioStep s e) h1 h3
    exact ⟨g1, g2.trans h2, g3⟩

/-- Claim C4: stopAllAudio empties the pending queue, resets the
nextPlayTime cursor, releases the playback context, and under any later
sequence of events no further chunk is ever started, so every chunk queued
but not yet started at cancellation never plays. -/
theorem stopAllAudio_cancels (s : AudioState) (es : List AudioEvent) :
    (stopAllAudio s).audioQueue = [] ∧
    (stopAllAudio s).nextPlayTime = 0 ∧
    (stopAllAudio s).ctxOpen = false ∧
    (audioRun (stopAllAudio s) es).started = s.started := by
  refine ⟨rfl, rfl, rfl, ?_⟩
  exact (audioRun_stopped (stopAllAudio s) es rfl rfl).2.1

/-- Claim C10: once stopAllAudio has run, the stopped flag stays set under
any later sequence of events, the queue stays empty, the enqueue handler
discards every incoming chunk unchanged, and nothing further is started. -/
theorem stopAllAudio_permanent (s : AudioState) (es : List AudioEvent) (c : AudioChunk) :
    (audioRun (stopAllAudio s) es).stopped = true ∧
    (audioRun (stopAllAudio s) es).audioQueue = [] ∧
    handleAudioPlayback (audioRun (stopAllAudio s) es) c = audioRun (stopAllAudio s) es ∧
    (audioRun (stopAllAudio s) es).started = s.started := by
  obtain ⟨h1, h2, h3⟩ := audioRun_stopped (stopAllAudio s) es rfl rfl
  exact ⟨h1, h3, by simp [handleAudioPlayback, h1], h2⟩

theorem mapToInterviewEmotions_inRange (f : FacialEmotions) (hf : validFacial f) :
    interviewInRange (mapToInterviewEmotions f) := by
  obtain ⟨⟨ha0, ha1⟩, ⟨hd0, hd1⟩, ⟨hf0, hf1⟩, ⟨hh0, hh1⟩, ⟨hn0, hn1⟩, ⟨hs0, hs1⟩,
    ⟨hu0, hu1⟩⟩ := hf
  have habs : 0 ≤ |f.angry + f.disgusted| := abs_nonneg _
  have hmin : min 1 (f.fearful * 2 + f.sad * (12 / 10) + f.angry * (5 / 10) +
      f.disgusted * (3 / 10)) ≤ 1 := min_le_left _ _
  simp only [mapToInterviewEmotions, interviewInRange]
  exact ⟨round2_min_one_unitRange (by linarith), round2_min_one_unitRange (by linarith),
    round2_min_one_unitRange (by linarith)⟩

theorem mapToVocalEmotions_inRange (v : VocalFeatures) (hv : validVocalFeatures v) :
    vocalInRange (mapToVocalEmotions v) := by
  obtain ⟨⟨hp0, hp1⟩, ⟨hpv0, hpv1⟩, ⟨hvo0, hvo1⟩, ⟨hr0, hr1⟩, ⟨hs0, hs1⟩⟩ := hv
  simp only [mapToVocalEmotions, vocalInRange]
  exact ⟨round2_min_one_unitRange (by linarith), round2_min_one_unitRange (by linarith),
    round2_min_one_unitRange (by linarith)⟩

theorem fuse_channel_unitRange {a b : ℚ} (ha : unitRange a) (hb : unitRange b) :
    unitRange (AUDIO_WEIGHT * a + VISUAL_WEIGHT * b) := by
  obtain ⟨ha0, ha1⟩ := ha
  obtain ⟨hb0, hb1⟩ := hb
  unfold AUDIO_WEIGHT VISUAL_WEIGHT unitRange
  constructor <;> nlinarith

theorem fuseEmotions_inRange (fo : Option InterviewEmotions) (vo : Option VocalEmotions)
    (r : FusedEmotions)
    (hf : ∀ x, fo = some x → interviewInRange x)
    (hv : ∀ x, vo = some x → vocalInRange x)
    (hr : fuseEmotions fo vo = some r) : fusedInRange r := by
  have hhalf : unitRange (1 / 2 : ℚ) := by constructor <;> norm_num
  cases fo with
  | none =>
    cases vo with
    | none => simp [fuseEmotions] at hr
    | some v =>
      obtain ⟨hv1, hv2, hv3⟩ := hv v rfl
      simp only [fuseEmotions, Option.getD_some, Option.getD_none, Option.some.injEq] at hr
      subst hr
      exact ⟨fuse_channel_unitRange hv1 hhalf, fuse_channel_unitRange hv2 hhalf,
        fuse_channel_unitRange hv3 hhalf⟩
  | some fa =>
    obtain ⟨hf1, hf2, hf3⟩ := hf fa rfl
    cases vo with
    | none =>
      simp only [fuseEmotions, Option.getD_some, Option.getD_none, Option.some.injEq] at hr
      subst hr
      exact ⟨fuse_channel_unitRange hhalf hf1, fuse_channel_unitRange hhalf hf2,
        fuse_channel_unitRange hhalf hf3⟩
    | some v =>
      obtain ⟨hv1, hv2, hv3⟩ := hv v rfl
      simp only [fuseEmotions, Option.getD_some, Option.getD_none, Option.some.injEq] at hr
      subst hr
      exact ⟨fuse_channel_unitRange hv1 hf1, fuse_channel_unitRange hv2 hf2,
        fuse_channel_unitRange hv3 hf3⟩

/-- Claim C1: for a facial sample with all seven channels in the unit
interval and a vocal feature sample with all fields in the unit interval,
every output channel of the visual mapper, the vocal mapper, and of fusion
applied to any combination of those outputs and missing modalities lies
in the unit interval. -/
theorem affect_pipeline_unit_range (f : FacialEmotions) (v : VocalFeatures)
    (hf : validFacial f) (hv : validVocalFeatures v) :
    interviewInRange (mapToInterviewEmotions f) ∧
    vocalInRange (mapToVocalEmotions v) ∧
    ∀ (fo : Option InterviewEmotions) (vo : Option VocalEmotions) (r : FusedEmotions),
      (fo = none ∨ fo = some (mapToInterviewEmotions f)) →
      (vo = none ∨ vo = some (mapToVocalEmotions v)) →
      fuseEmotions fo vo = some r → fusedInRange r := by
  have hie := mapToInterviewEmotions_inRange f hf
  have hve := mapToVocalEmotions_inRange v hv
  refine ⟨hie, hve, ?_⟩
  intro fo vo r hfo hvo hr
  apply fuseEmotions_inRange fo vo r _ _ hr
  · intro x hx
    rcases hfo with rfl | rfl
    · exact Option.noConfusion hx
    · injection hx with hx
      subst hx
      exact hie
  · intro x hx
    rcases hvo with rfl | rfl
    · exact Option.noConfusion hx
    · injection hx with hx
      subst hx
      exact hve

/-- Claim C1 witness: the range theorem instantiated at a concrete facial
sample and the worked-example vocal feature sample. -/
theorem affect_pipeline_unit_range_witness :
    interviewInRange (mapToInterviewEmotions exFacial) ∧
    vocalInRange (mapToVocalEmotions exVocalFeatures) ∧
    ∀ (fo : Option InterviewEmotions) (vo : Option VocalEmotions) (r : FusedEmotions),
      (fo = none ∨ fo = some (mapToInterviewEmotions exFacial)) →
      (vo = none ∨ vo = some (mapToVocalEmotions exVocalFeatures)) →
      fuseEmotions fo vo = some r → fusedInRange r :=
  affect_pipeline_unit_range exFacial exVocalFeatures
    (by norm_num [validFacial, unitRange, exFacial])
    (by norm_num [validVocalFeatures, unitRange, exVocalFeatures])
